import Mathlib

/-!
Verification of the points / streaks / leaderboard engine of the
boostrap-hub-bot repository, as a shallow embedding in Lean 4.

Go `time.Time` values are modelled by `Time`: a calendar day index
(`day : Int`) together with the offset inside that day (`frac : Nat`).
`time.Date(Y, M, D, 0, 0, 0, 0, loc)` truncation is `Time.startOfDay`
(zeroing the intra-day offset), `Add(-24h)` applied to a midnight moves
`day` down by one, and Go's `Before` / SQL's `<`, `<=` are the
lexicographic order on `(day, frac)`.

The gorm-backed storage is modelled by `DB`, a record of rows; each Go
database function becomes a pure function on `DB`, with `DB.Transaction`
modelled by `transact` (a body that either returns the mutated state or
an error, in which case the original state is kept — rollback).
-/

namespace BootstrapBot

/-- A point in time: calendar day index plus offset within the day. -/
structure Time where
  day : Int
  frac : Nat
deriving Repr, DecidableEq

/-- Truncation to midnight, i.e. `time.Date(Y, M, D, 0, 0, 0, 0, loc)`. -/
def Time.startOfDay (t : Time) : Time :=
  ⟨t.day, 0⟩

/-- The order `a <= b` on times (SQL `<=`, negation of Go `After`). -/
def Time.ble (a b : Time) : Bool :=
  decide (a.day < b.day) || (decide (a.day = b.day) && decide (a.frac ≤ b.frac))

/-- The strict order `a < b` on times (Go `Before`, SQL `<`). -/
def Time.blt (a b : Time) : Bool :=
  decide (a.day < b.day) || (decide (a.day = b.day) && decide (a.frac < b.frac))

/-- Error kinds of the engine (Go reports these as `fmt.Errorf` strings). -/
inductive Err where
  | userNotFound
  | goalNotFound
  | alreadyCompleted
  | duplicateCheckIn
  | estimatorFailure
deriving Repr, DecidableEq

/-- `database.User` (`models.go`): identity plus lifetime point total. -/
structure User where
  id : Nat
  discordID : String
  guildID : String
  username : String
  totalPoints : Int
deriving Repr, DecidableEq

/-- `database.FocusPeriod` (`models.go`). -/
structure FocusPeriod where
  id : Nat
  userID : Nat
  guildID : String
  startDate : Time
  endDate : Time
  leaderboardPosted : Bool
deriving Repr, DecidableEq

/-- `database.Task` (`models.go`): a goal within a focus period. -/
structure Task where
  id : Nat
  focusPeriodID : Nat
  title : String
  description : String
  completed : Bool
  completedAt : Option Time
  position : Int
  points : Int
deriving Repr, DecidableEq

/-- `database.SprintPoints` (`models.go`): per-period subtotal with the
period's window cached on the row. -/
structure SprintPoints where
  focusPeriodID : Nat
  userID : Nat
  guildID : String
  points : Int
  startDate : Time
  endDate : Time
deriving Repr, DecidableEq

/-- `database.GuildConfig` (`models.go`). -/
structure GuildConfig where
  guildID : String
  leaderboardChannel : String
deriving Repr, DecidableEq

/-- `database.Standup` (`models.go`): a daily check-in row. -/
structure Standup where
  userID : Nat
  guildID : String
  date : Time
deriving Repr, DecidableEq

/-- `database.UserStreak` (`models.go`). -/
structure UserStreak where
  userID : Nat
  guildID : String
  currentStreak : Int
  longestStreak : Int
  lastStandupDate : Option Time
  totalStandups : Int
deriving Repr, DecidableEq

/-- The database state: one list of rows per table used by the engine. -/
structure DB where
  users : List User
  periods : List FocusPeriod
  tasks : List Task
  sprintPoints : List SprintPoints
  guildConfigs : List GuildConfig
  standups : List Standup
  streaks : List UserStreak
deriving Repr, DecidableEq

/-- Row update: gorm `Save` overwrites every row matching the key
predicate (the primary key in practice). -/
def updateWhere {α : Type} (p : α → Bool) (f : α → α) (l : List α) : List α :=
  l.map (fun a => if p a then f a else a)

/-- `DB.Transaction`: run the body; on error the state is rolled back. -/
def transact (db : DB) (body : DB → Except Err DB) : DB × Option Err :=
  match body db with
  | .ok db' => (db', none)
  | .error e => (db, some e)

/-- `First(&user)` keyed on `id = ?`. -/
def findUser (db : DB) (userID : Nat) : Option User :=
  db.users.find? (fun u => u.id == userID)

/-- `First(&sp)` keyed on `focus_period_id = ? AND user_id = ?`. -/
def findSprint (db : DB) (focusPeriodID userID : Nat) : Option SprintPoints :=
  db.sprintPoints.find? (fun sp => sp.focusPeriodID == focusPeriodID && sp.userID == userID)

/-- The user-table mutation of `AddPointsToUser`: `user.TotalPoints +=
points; tx.Save(&user)`. -/
def bumpUserPoints (userID : Nat) (points : Int) (l : List User) : List User :=
  updateWhere (fun x => x.id == userID)
    (fun x => { x with totalPoints := x.totalPoints + points }) l

/-- The sprint-table mutation of `AddPointsToUser`: find-or-create the
`SprintPoints` row for `(focusPeriodID, userID)`; on creation the row is
initialized with `points` and the period window is cached; otherwise
`sp.Points += points; tx.Save(&sp)`. -/
def addSprint (focusPeriodID userID : Nat) (guildID : String) (points : Int)
    (startDate endDate : Time) (l : List SprintPoints) : List SprintPoints :=
  match l.find? (fun sp => sp.focusPeriodID == focusPeriodID && sp.userID == userID) with
  | none =>
    l ++ [{ focusPeriodID := focusPeriodID, userID := userID, guildID := guildID,
            points := points, startDate := startDate, endDate := endDate }]
  | some _ =>
    updateWhere (fun sp => sp.focusPeriodID == focusPeriodID && sp.userID == userID)
      (fun sp => { sp with points := sp.points + points }) l

/-- `AddPointsToUser` (`points_operations.go`), transaction body: fetch
the user (error if missing), add `points` to its lifetime total, then
find-or-create the `SprintPoints` row for `(focusPeriodID, userID)` and
add `points` to its subtotal. The user mutation touches only `users` and
the sprint mutation only `sprintPoints`, so the two sequential writes of
the Go body are the two field updates below. -/
def addPointsBody (userID focusPeriodID : Nat) (points : Int) (guildID : String)
    (startDate endDate : Time) (db : DB) : Except Err DB :=
  match findUser db userID with
  | none => .error .userNotFound
  | some _ =>
    .ok { db with
          users := bumpUserPoints userID points db.users,
          sprintPoints := addSprint focusPeriodID userID guildID points startDate endDate db.sprintPoints }

/-- `AddPointsToUser` (`points_operations.go` lines 95-134): the body
above wrapped in `DB.Transaction`. -/
def AddPointsToUser (db : DB) (userID focusPeriodID : Nat) (points : Int)
    (guildID : String) (startDate endDate : Time) : DB × Option Err :=
  transact db (addPointsBody userID focusPeriodID points guildID startDate endDate)

theorem find?_updateWhere_pos {α : Type} (p : α → Bool) (f : α → α)
    (hf : ∀ a, p a = true → p (f a) = true) (l : List α) :
    (updateWhere p f l).find? p = (l.find? p).map f := by
  induction l with
  | nil => rfl
  | cons a l ih =>
    simp only [updateWhere, List.map]
    by_cases h : p a = true
    · rw [if_pos h, List.find?_cons_of_pos _ (hf a h), List.find?_cons_of_pos _ h]
      rfl
    · have h' : p a = false := by simpa using h
      rw [if_neg h, List.find?_cons_of_neg _ (by simp [h']),
        List.find?_cons_of_neg _ (by simp [h'])]
      exact ih

theorem find?_pred {α : Type} (p : α → Bool) (l : List α) (a : α)
    (h : l.find? p = some a) : p a = true := by
  induction l with
  | nil => cases h
  | cons b l ih =>
    cases hb : p b with
    | true =>
      rw [List.find?_cons_of_pos _ hb] at h
      cases h
      exact hb
    | false =>
      rw [List.find?_cons_of_neg _ (by simp [hb])] at h
      exact ih h

theorem find?_append_none {α : Type} (p : α → Bool) (l₁ l₂ : List α)
    (h : l₁.find? p = none) : (l₁ ++ l₂).find? p = l₂.find? p := by
  induction l₁ with
  | nil => rfl
  | cons a l ih =>
    cases hpa : p a with
    | true => rw [List.find?_cons_of_pos _ hpa] at h; cases h
    | false =>
      rw [List.find?_cons_of_neg _ (by simp [hpa])] at h
      rw [List.cons_append, List.find?_cons_of_neg _ (by simp [hpa])]
      exact ih h

theorem find?_addSprint_of_none (focusPeriodID userID : Nat) (guildID : String)
    (points : Int) (startDate endDate : Time) (l : List SprintPoints)
    (h : l.find? (fun sp => sp.focusPeriodID == focusPeriodID && sp.userID == userID) = none) :
    (addSprint focusPeriodID userID guildID points startDate endDate l).find?
        (fun sp => sp.focusPeriodID == focusPeriodID && sp.userID == userID)
      = some { focusPeriodID := focusPeriodID, userID := userID, guildID := guildID,
               points := points, startDate := startDate, endDate := endDate } := by
  unfold addSprint
  rw [h]
  rw [find?_append_none _ _ _ h]
  simp [List.find?]

theorem find?_addSprint_of_some (focusPeriodID userID : Nat) (guildID : String)
    (points : Int) (startDate endDate : Time) (l : List SprintPoints) (sp0 : SprintPoints)
    (h : l.find? (fun sp => sp.focusPeriodID == focusPeriodID && sp.userID == userID) = some sp0) :
    (addSprint focusPeriodID userID guildID points startDate endDate l).find?
        (fun sp => sp.focusPeriodID == focusPeriodID && sp.userID == userID)
      = some { sp0 with points := sp0.points + points } := by
  unfold addSprint
  rw [h]
  rw [find?_updateWhere_pos _ _ (fun a ha => by simpa using ha), h]
  rfl

theorem find?_bumpUserPoints (userID : Nat) (points : Int) (l : List User) :
    (bumpUserPoints userID points l).find? (fun u => u.id == userID)
      = (l.find? (fun u => u.id == userID)).map
          (fun x => { x with totalPoints := x.totalPoints + points }) := by
  unfold bumpUserPoints
  exact find?_updateWhere_pos _ _ (fun a ha => by simpa using ha) l

/-- Characterization of a successful `AddPointsToUser` call, shared by the
C1 and C2 theorems. -/
theorem addPointsToUser_ok (db : DB) (userID focusPeriodID : Nat) (points : Int)
    (guildID : String) (startDate endDate : Time) (u : User)
    (hu : findUser db userID = some u) :
    (AddPointsToUser db userID focusPeriodID points guildID startDate endDate).2 = none ∧
    findUser (AddPointsToUser db userID focusPeriodID points guildID startDate endDate).1 userID
      = some { u with totalPoints := u.totalPoints + points } ∧
    (findSprint db focusPeriodID userID = none →
      findSprint (AddPointsToUser db userID focusPeriodID points guildID startDate endDate).1
          focusPeriodID userID
        = some { focusPeriodID := focusPeriodID, userID := userID, guildID := guildID,
                 points := points, startDate := startDate, endDate := endDate }) ∧
    (∀ sp, findSprint db focusPeriodID userID = some sp →
      findSprint (AddPointsToUser db userID focusPeriodID points guildID startDate endDate).1
          focusPeriodID userID
        = some { sp with points := sp.points + points }) := by
  have hmain : AddPointsToUser db userID focusPeriodID points guildID startDate endDate
      = ({ db with
            users := bumpUserPoints userID points db.users,
            sprintPoints := addSprint focusPeriodID userID guildID points startDate endDate
              db.sprintPoints }, none) := by
    unfold AddPointsToUser transact addPointsBody
    rw [hu]
  rw [hmain]
  refine ⟨rfl, ?_, ?_, ?_⟩
  · show (bumpUserPoints userID points db.users).find? (fun x => x.id == userID) = _
    rw [find?_bumpUserPoints]
    unfold findUser at hu
    rw [hu]
    rfl
  · intro hnone
    exact find?_addSprint_of_none focusPeriodID userID guildID points startDate endDate
      db.sprintPoints hnone
  · intro sp hsp
    exact find?_addSprint_of_some focusPeriodID userID guildID points startDate endDate
      db.sprintPoints sp hsp

/-- Failure characterization of `AddPointsToUser`: the transaction rolls
back, so the returned state is the original one. -/
theorem addPointsToUser_err (db : DB) (userID focusPeriodID : Nat) (points : Int)
    (guildID : String) (startDate endDate : Time)
    (h : (AddPointsToUser db userID focusPeriodID points guildID startDate endDate).2 ≠ none) :
    (AddPointsToUser db userID focusPeriodID points guildID startDate endDate).1 = db := by
  unfold AddPointsToUser transact at h ⊢
  cases hb : addPointsBody userID focusPeriodID points guildID startDate endDate db with
  | ok db' => rw [hb] at h; simp at h
  | error e => rfl

/-- C1: a successful `AddPointsToUser(userID, periodID, amount, windowStart,
windowEnd)` increments the user's lifetime total by `amount` and
finds-or-creates the `SprintPoints` row for `(periodID, userID)`,
incrementing its subtotal by `amount` and caching the window on creation;
a failing call leaves the state entirely unchanged (transaction rollback,
no partial application). -/
theorem C1_addPointsToUser_atomic (db : DB) (userID focusPeriodID : Nat) (points : Int)
    (guildID : String) (startDate endDate : Time) :
    ((AddPointsToUser db userID focusPeriodID points guildID startDate endDate).2 = none →
      ∃ u, findUser db userID = some u ∧
        findUser (AddPointsToUser db userID focusPeriodID points guildID startDate endDate).1 userID
          = some { u with totalPoints := u.totalPoints + points } ∧
        (findSprint db focusPeriodID userID = none →
          findSprint (AddPointsToUser db userID focusPeriodID points guildID startDate endDate).1
              focusPeriodID userID
            = some { focusPeriodID := focusPeriodID, userID := userID, guildID := guildID,
                     points := points, startDate := startDate, endDate := endDate }) ∧
        (∀ sp, findSprint db focusPeriodID userID = some sp →
          findSprint (AddPointsToUser db userID focusPeriodID points guildID startDate endDate).1
              focusPeriodID userID
            = some { sp with points := sp.points + points })) ∧
    ((AddPointsToUser db userID focusPeriodID points guildID startDate endDate).2 ≠ none →
      (AddPointsToUser db userID focusPeriodID points guildID startDate endDate).1 = db) := by
  constructor
  · intro hok
    rcases hu : findUser db userID with _ | u
    · exfalso
      unfold AddPointsToUser transact addPointsBody at hok
      rw [hu] at hok
      simp at hok
    · obtain ⟨_, h2, h3, h4⟩ := addPointsToUser_ok db userID focusPeriodID points guildID
        startDate endDate u hu
      exact ⟨u, rfl, h2, h3, h4⟩
  · exact addPointsToUser_err db userID focusPeriodID points guildID startDate endDate

/-- Witness for C1 at a concrete state: one user with 10 lifetime points
and no sprint row; adding 7 points succeeds, and by C1 the total becomes
17 and a fresh sprint row holds 7 points with the window cached. -/
theorem C1_witness :
    ((AddPointsToUser
        { users := [{ id := 1, discordID := "d1", guildID := "g", username := "alice",
                      totalPoints := 10 }],
          periods := [], tasks := [], sprintPoints := [], guildConfigs := [],
          standups := [], streaks := [] }
        1 5 7 "g" ⟨0, 0⟩ ⟨14, 0⟩).2 = none) ∧
    (∃ u, findUser
        { users := [{ id := 1, discordID := "d1", guildID := "g", username := "alice",
                      totalPoints := 10 }],
          periods := [], tasks := [], sprintPoints := [], guildConfigs := [],
          standups := [], streaks := [] } 1 = some u ∧
      findUser (AddPointsToUser
        { users := [{ id := 1, discordID := "d1", guildID := "g", username := "alice",
                      totalPoints := 10 }],
          periods := [], tasks := [], sprintPoints := [], guildConfigs := [],
          standups := [], streaks := [] }
        1 5 7 "g" ⟨0, 0⟩ ⟨14, 0⟩).1 1 = some { u with totalPoints := u.totalPoints + 7 }) := by
  have h := (C1_addPointsToUser_atomic
    { users := [{ id := 1, discordID := "d1", guildID := "g", username := "alice",
                  totalPoints := 10 }],
      periods := [], tasks := [], sprintPoints := [], guildConfigs := [],
      standups := [], streaks := [] }
    1 5 7 "g" ⟨0, 0⟩ ⟨14, 0⟩).1 (by decide)
  obtain ⟨u, hu, h2, _, _⟩ := h
  exact ⟨by decide, u, hu, h2⟩

/-- `StreakMilestones` (`models.go` lines 302-309): exact-match streak
bonus table, 7→10, 14→25, 30→50, 60→100, 90→200. -/
def StreakMilestones : Int → Option Int :=
  fun k =>
    if k = 7 then some 10
    else if k = 14 then some 25
    else if k = 30 then some 50
    else if k = 60 then some 100
    else if k = 90 then some 200
    else none

/-- The streak-update block of `CreateStandup` (`standup_operations.go`
lines 59-82): consecutive day increments, a gap resets to 1, a first-ever
standup starts at 1; the longest streak is raised when exceeded, the
standup counter is bumped and the last-standup date set to `today`. -/
def updateStreakCounters (streak : UserStreak) (today : Time) : UserStreak :=
  let todayStart := today.startOfDay
  let yesterday : Time := ⟨todayStart.day - 1, 0⟩
  let current : Int :=
    match streak.lastStandupDate with
    | some last =>
      let lastDate := last.startOfDay
      if lastDate = yesterday then streak.currentStreak + 1
      else if Time.blt lastDate yesterday then 1
      else streak.currentStreak
    | none => 1
  let longest := if current > streak.longestStreak then current else streak.longestStreak
  { streak with
    currentStreak := current,
    longestStreak := longest,
    totalStandups := streak.totalStandups + 1,
    lastStandupDate := some today }

/-- The zeroed `UserStreak` row created by `CreateStandup` when the user
has no streak row yet. -/
def zeroStreak (userID : Nat) (guildID : String) : UserStreak :=
  { userID := userID,
    guildID := guildID,
    currentStreak := 0,
    longestStreak := 0,
    lastStandupDate := none,
    totalStandups := 0 }

/-- The streak row `CreateStandup` starts from: the stored row for
`(userID, guildID)`, or a zeroed row created on the spot. -/
def fetchStreak (db : DB) (userID : Nat) (guildID : String) : UserStreak :=
  match db.streaks.find? (fun s => s.userID == userID && s.guildID == guildID) with
  | none => zeroStreak userID guildID
  | some s => s

/-- The `streaks` table after `CreateStandup` saved the updated streak
`streak1`: when no row existed the zeroed row is first created (appended)
and then overwritten by the save; otherwise the existing row is
overwritten. -/
def saveStreakRow (db : DB) (userID : Nat) (guildID : String) (streak1 : UserStreak) :
    List UserStreak :=
  match db.streaks.find? (fun s => s.userID == userID && s.guildID == guildID) with
  | none =>
    updateWhere (fun s => s.userID == userID && s.guildID == guildID)
      (fun _ => streak1) (db.streaks ++ [zeroStreak userID guildID])
  | some _ =>
    updateWhere (fun s => s.userID == userID && s.guildID == guildID)
      (fun _ => streak1) db.streaks

/-- The transaction body of `CreateStandup`: insert the standup row,
get-or-create the streak row, update its counters, look up the milestone
bonus, save the streak, then fetch the user and award `1 + bonus`
lifetime points. Only `standups`, `streaks` and `users` are written, each
exactly once, so the body is the single record update below; the user
fetch is the only fallible step. -/
def createStandupBody (userID : Nat) (guildID : String) (today : Time) (db : DB) :
    Except Err (DB × UserStreak × Int) :=
  let streak1 := updateStreakCounters (fetchStreak db userID guildID) today
  let bonus := (StreakMilestones streak1.currentStreak).getD 0
  match findUser db userID with
  | none => .error .userNotFound
  | some u =>
    .ok ({ db with
           standups := db.standups ++ [{ userID := userID, guildID := guildID, date := today }],
           streaks := saveStreakRow db userID guildID streak1,
           users := updateWhere (fun x => x.id == userID)
             (fun _ => { u with totalPoints := u.totalPoints + (1 + bonus) }) db.users },
         streak1, bonus)

/-- Result of `CreateStandup`: the new state, the error if any, the saved
streak and the milestone bonus returned to the caller. -/
structure StandupResult where
  db : DB
  err : Option Err
  streak : Option UserStreak
  bonus : Int
deriving Repr, DecidableEq

/-- `CreateStandup` (`standup_operations.go` lines 11-112): reject a
second standup on the same calendar day before mutating anything, then
run the transactional body (standup row + streak update + point award);
on a body error the transaction rolls back. -/
def CreateStandup (db : DB) (userID : Nat) (guildID : String) (today : Time) : StandupResult :=
  let todayStart := today.startOfDay
  if db.standups.any (fun st =>
      st.userID == userID && st.guildID == guildID && Time.ble todayStart st.date)
  then { db := db, err := some .duplicateCheckIn, streak := none, bonus := 0 }
  else
    match createStandupBody userID guildID today db with
    | .ok (db', streak, bonus) => { db := db', err := none, streak := some streak, bonus := bonus }
    | .error e => { db := db, err := some e, streak := none, bonus := 0 }

/-- `GetUserStreak` (`standup_operations.go` lines 115-135): fetch the
streak row, defaulting to zeroes when the user never posted. -/
def GetUserStreak (db : DB) (userID : Nat) (guildID : String) : UserStreak :=
  match db.streaks.find? (fun s => s.userID == userID && s.guildID == guildID) with
  | none => zeroStreak userID guildID
  | some s => s

/-- Chain several check-ins for one user, keeping only the evolving
state (the scenario driver for the streak-continuity claim). -/
def runCheckIns (db : DB) (userID : Nat) (guildID : String) (ts : List Time) : DB :=
  ts.foldl (fun d t => (CreateStandup d userID guildID t).db) db

/-- Success characterization of `CreateStandup`, shared by the streak
claims: the user row existed, the standup row was inserted, the returned
streak is the counter-updated one, it was saved, and the user was
credited `1 + bonus` lifetime points. -/
theorem createStandup_ok_spec (db : DB) (userID : Nat) (guildID : String) (today : Time)
    (h : (CreateStandup db userID guildID today).err = none) :
    ∃ u0, findUser db userID = some u0 ∧
      (CreateStandup db userID guildID today).streak
        = some (updateStreakCounters (fetchStreak db userID guildID) today) ∧
      (CreateStandup db userID guildID today).bonus
        = (StreakMilestones
            (updateStreakCounters (fetchStreak db userID guildID) today).currentStreak).getD 0 ∧
      findUser (CreateStandup db userID guildID today).db userID
        = some { u0 with totalPoints := u0.totalPoints +
            (1 + (StreakMilestones
              (updateStreakCounters (fetchStreak db userID guildID) today).currentStreak).getD 0) } ∧
      (CreateStandup db userID guildID today).db.standups
        = db.standups ++ [{ userID := userID, guildID := guildID, date := today }] ∧
      (CreateStandup db userID guildID today).db.streaks
        = saveStreakRow db userID guildID
            (updateStreakCounters (fetchStreak db userID guildID) today) := by
  unfold CreateStandup createStandupBody at h ⊢
  by_cases hdup : db.standups.any (fun st =>
      st.userID == userID && st.guildID == guildID && Time.ble today.startOfDay st.date) = true
  · rw [if_pos hdup] at h; cases h
  · rw [if_neg hdup] at h ⊢
    cases hu : findUser db userID with
    | none => rw [hu] at h; cases h
    | some u0 =>
      have hu' : db.users.find? (fun u => u.id == userID) = some u0 := hu
      have hid : (fun (u : User) => u.id == userID) u0 = true :=
        find?_pred _ db.users u0 hu'
      refine ⟨u0, rfl, rfl, rfl, ?_, rfl, rfl⟩
      have hrw := find?_updateWhere_pos (fun x : User => x.id == userID)
        (fun _ => { u0 with totalPoints := u0.totalPoints +
          (1 + (StreakMilestones
            (updateStreakCounters (fetchStreak db userID guildID) today).currentStreak).getD 0) })
        (fun a _ => hid) db.users
      show List.find? (fun x => x.id == userID)
        (updateWhere (fun x => x.id == userID)
          (fun _ => { u0 with totalPoints := u0.totalPoints +
            (1 + (StreakMilestones
              (updateStreakCounters (fetchStreak db userID guildID) today).currentStreak).getD 0) })
          db.users) = _
      rw [hrw, hu']
      rfl

theorem ble_startOfDay (t : Time) : Time.ble t.startOfDay t = true := by
  simp [Time.ble, Time.startOfDay]

theorem max_via_if (longest c : Int) : (if c > longest then c else longest) = max longest c := by
  split <;> omega

theorem blt_ne (a b : Time) (h : Time.blt a b = true) : a ≠ b := by
  intro heq
  subst heq
  simp [Time.blt] at h

/-- A sample community state: one registered user, nothing else. -/
def demoDB : DB :=
  { users := [{ id := 1, discordID := "d1", guildID := "g", username := "alice",
                totalPoints := 0 }],
    periods := [], tasks := [], sprintPoints := [], guildConfigs := [],
    standups := [], streaks := [] }

/-- C3: the streak-update rule of `CreateStandup`: a first-ever check-in
sets the current streak to 1; a check-in exactly one day after the last
one increments it; a gap of two or more days resets it to 1; the longest
streak always becomes the maximum of the old longest and the new current
streak. In particular check-ins on days D, D+1, D+2 end with current
streak 3, and check-ins on D, D+1, D+5 end with current streak 1 and
longest streak 2. -/
theorem C3_streak_continuity :
    (∀ (streak : UserStreak) (today : Time), streak.lastStandupDate = none →
      (updateStreakCounters streak today).currentStreak = 1) ∧
    (∀ (streak : UserStreak) (today last : Time), streak.lastStandupDate = some last →
      last.startOfDay = ⟨today.day - 1, 0⟩ →
      (updateStreakCounters streak today).currentStreak = streak.currentStreak + 1) ∧
    (∀ (streak : UserStreak) (today last : Time), streak.lastStandupDate = some last →
      Time.blt last.startOfDay ⟨today.day - 1, 0⟩ = true →
      (updateStreakCounters streak today).currentStreak = 1) ∧
    (∀ (streak : UserStreak) (today : Time),
      (updateStreakCounters streak today).longestStreak
        = max streak.longestStreak (updateStreakCounters streak today).currentStreak) ∧
    (GetUserStreak (runCheckIns demoDB 1 "g" [⟨0, 9⟩, ⟨1, 9⟩, ⟨2, 9⟩]) 1 "g").currentStreak = 3 ∧
    (GetUserStreak (runCheckIns demoDB 1 "g" [⟨0, 9⟩, ⟨1, 9⟩, ⟨5, 9⟩]) 1 "g").currentStreak = 1 ∧
    (GetUserStreak (runCheckIns demoDB 1 "g" [⟨0, 9⟩, ⟨1, 9⟩, ⟨5, 9⟩]) 1 "g").longestStreak = 2 := by
  refine ⟨?_, ?_, ?_, ?_, by decide, by decide, by decide⟩
  · intro streak today hnone
    unfold updateStreakCounters
    rw [hnone]
  · intro streak today last hsome hday
    unfold updateStreakCounters
    rw [hsome]
    simp only [Time.startOfDay] at hday ⊢
    rw [if_pos hday]
  · intro streak today last hsome hlt
    unfold updateStreakCounters
    rw [hsome]
    simp only [Time.startOfDay] at hlt ⊢
    rw [if_neg (blt_ne _ _ hlt), if_pos hlt]
  · intro streak today
    exact max_via_if _ _

/-- Witness for C3 at concrete inputs: each conditional branch of the
streak rule discharged on explicit streak rows and dates. -/
theorem C3_witness :
    (updateStreakCounters (zeroStreak 1 "g") ⟨3, 9⟩).currentStreak = 1 ∧
    (updateStreakCounters
      { userID := 1, guildID := "g", currentStreak := 2, longestStreak := 2,
        lastStandupDate := some ⟨2, 11⟩, totalStandups := 2 } ⟨3, 9⟩).currentStreak = 2 + 1 ∧
    (updateStreakCounters
      { userID := 1, guildID := "g", currentStreak := 2, longestStreak := 2,
        lastStandupDate := some ⟨0, 11⟩, totalStandups := 2 } ⟨3, 9⟩).currentStreak = 1 := by
  refine ⟨C3_streak_continuity.1 _ _ rfl, ?_, ?_⟩
  · exact C3_streak_continuity.2.1
      { userID := 1, guildID := "g", currentStreak := 2, longestStreak := 2,
        lastStandupDate := some ⟨2, 11⟩, totalStandups := 2 } ⟨3, 9⟩ ⟨2, 11⟩ rfl (by decide)
  · exact C3_streak_continuity.2.2.1
      { userID := 1, guildID := "g", currentStreak := 2, longestStreak := 2,
        lastStandupDate := some ⟨0, 11⟩, totalStandups := 2 } ⟨3, 9⟩ ⟨0, 11⟩ rfl (by decide)

/-- Duplicate-check characterization of `CreateStandup`: when a standup
row of the same user and community dated on or after the start of
`today`'s calendar day exists, the call fails before mutating anything. -/
theorem createStandup_dup (db : DB) (userID : Nat) (guildID : String) (today : Time)
    (hany : db.standups.any (fun st =>
      st.userID == userID && st.guildID == guildID && Time.ble today.startOfDay st.date) = true) :
    CreateStandup db userID guildID today
      = { db := db, err := some .duplicateCheckIn, streak := none, bonus := 0 } := by
  simp only [CreateStandup, hany, if_true]

/-- C4: once a check-in for a `(user, community, calendar day)` has been
accepted, a second `CreateStandup` call on the same calendar day fails
with the duplicate-check-in error and returns the state completely
unchanged: no standup row, no streak change, no points. -/
theorem C4_duplicate_checkin_rejected (db : DB) (userID : Nat) (guildID : String)
    (t1 t2 : Time) (h1 : (CreateStandup db userID guildID t1).err = none)
    (hday : t2.startOfDay = t1.startOfDay) :
    CreateStandup (CreateStandup db userID guildID t1).db userID guildID t2
      = { db := (CreateStandup db userID guildID t1).db,
          err := some .duplicateCheckIn, streak := none, bonus := 0 } := by
  obtain ⟨u0, _, _, _, _, hstand, _⟩ := createStandup_ok_spec db userID guildID t1 h1
  have hany : (CreateStandup db userID guildID t1).db.standups.any (fun st =>
      st.userID == userID && st.guildID == guildID && Time.ble t2.startOfDay st.date) = true := by
    rw [List.any_eq_true]
    refine ⟨{ userID := userID, guildID := guildID, date := t1 }, ?_, ?_⟩
    · rw [hstand]
      simp
    · simp only
      rw [hday]
      have h := ble_startOfDay t1
      simp only [Time.startOfDay] at h ⊢
      rw [h]
      simp
  exact createStandup_dup (CreateStandup db userID guildID t1).db userID guildID t2 hany

/-- Witness for C4: the two-calls-in-one-day scenario on the sample
state; the second call on day 0 is rejected with `duplicateCheckIn` and
the state is exactly the state after the first call. -/
theorem C4_witness :
    ((CreateStandup demoDB 1 "g" ⟨0, 9⟩).err = none) ∧
    ((⟨0, 15⟩ : Time).startOfDay = (⟨0, 9⟩ : Time).startOfDay) ∧
    CreateStandup (CreateStandup demoDB 1 "g" ⟨0, 9⟩).db 1 "g" ⟨0, 15⟩
      = { db := (CreateStandup demoDB 1 "g" ⟨0, 9⟩).db,
          err := some .duplicateCheckIn, streak := none, bonus := 0 } :=
  ⟨by decide, by decide, C4_duplicate_checkin_rejected demoDB 1 "g" ⟨0, 9⟩ ⟨0, 15⟩
    (by decide) (by decide)⟩

/-- C5: an accepted check-in credits the user exactly `1 + bonus`
lifetime points, where `bonus` is the milestone-table entry for the
resulting current streak; the table holds exactly 7→10, 14→25, 30→50,
60→100, 90→200, so any non-key streak value awards no bonus. -/
theorem C5_checkin_award_milestone (db : DB) (userID : Nat) (guildID : String) (today : Time)
    (h : (CreateStandup db userID guildID today).err = none) :
    (∃ u0 s, findUser db userID = some u0 ∧
      (CreateStandup db userID guildID today).streak = some s ∧
      (CreateStandup db userID guildID today).bonus = (StreakMilestones s.currentStreak).getD 0 ∧
      findUser (CreateStandup db userID guildID today).db userID
        = some { u0 with totalPoints :=
            u0.totalPoints + (1 + (StreakMilestones s.currentStreak).getD 0) }) ∧
    (StreakMilestones 7 = some 10 ∧ StreakMilestones 14 = some 25 ∧
     StreakMilestones 30 = some 50 ∧ StreakMilestones 60 = some 100 ∧
     StreakMilestones 90 = some 200) ∧
    (∀ k : Int, ¬(k = 7 ∨ k = 14 ∨ k = 30 ∨ k = 60 ∨ k = 90) → StreakMilestones k = none) := by
  refine ⟨?_, by decide, ?_⟩
  · obtain ⟨u0, hu, hstreak, hbonus, hpts, _, _⟩ := createStandup_ok_spec db userID guildID today h
    exact ⟨u0, updateStreakCounters (fetchStreak db userID guildID) today,
      hu, hstreak, hbonus, hpts⟩
  · intro k hk
    push_neg at hk
    obtain ⟨h7, h14, h30, h60, h90⟩ := hk
    simp only [StreakMilestones, if_neg h7, if_neg h14, if_neg h30, if_neg h60, if_neg h90]

/-- Witness for C5: a first check-in on the sample state succeeds; the
streak becomes 1 (not a milestone key) and the lifetime total rises by
exactly 1 point with zero bonus. -/
theorem C5_witness :
    ((CreateStandup demoDB 1 "g" ⟨0, 9⟩).err = none) ∧
    (∃ u0 s, findUser demoDB 1 = some u0 ∧
      (CreateStandup demoDB 1 "g" ⟨0, 9⟩).streak = some s ∧
      (CreateStandup demoDB 1 "g" ⟨0, 9⟩).bonus = (StreakMilestones s.currentStreak).getD 0 ∧
      findUser (CreateStandup demoDB 1 "g" ⟨0, 9⟩).db 1
        = some { u0 with totalPoints :=
            u0.totalPoints + (1 + (StreakMilestones s.currentStreak).getD 0) }) :=
  ⟨by decide, (C5_checkin_award_milestone demoDB 1 "g" ⟨0, 9⟩ (by decide)).1⟩

/-- Outcome of the OpenAI chat-completion call inside `CalculatePoints`:
the API call failed (including timeout), the response carried no choices,
or it returned a message content string. -/
inductive EstimatorResponse where
  | apiError
  | noChoices
  | content (s : String)
deriving Repr, DecidableEq

/-- `extractPoints` (`openai/client.go` lines 95-110): the regex `\d+`
finds the first maximal digit run of the response; no digits is an
error (modelled as `none`), otherwise the run is parsed as a number. -/
def extractPoints (content : String) : Option Nat :=
  match content.toList.dropWhile (fun c => !c.isDigit) with
  | [] => none
  | c :: rest =>
    some (((c :: rest).takeWhile Char.isDigit).foldl (fun n d => n * 10 + (d.toNat - 48)) 0)

/-- `CalculatePoints` (`openai/client.go` lines 32-92): a nil client (no
API key) yields the default 5; an API error or an empty choice list is
returned as an error; otherwise the trimmed content is parsed —
unparseable content falls back to 5, and a parsed value is clamped to
[1, 10]. -/
def CalculatePoints (configured : Bool) (resp : EstimatorResponse) : Except Err Int :=
  if !configured then .ok 5
  else
    match resp with
    | .apiError => .error .estimatorFailure
    | .noChoices => .error .estimatorFailure
    | .content s =>
      match extractPoints s.trim with
      | none => .ok 5
      | some n =>
        let p : Int := (n : Int)
        .ok (if p < 1 then 1 else if p > 10 then 10 else p)

/-- Modelled from the spec: the points-integrated `handleFocusAdd` glue
is missing from the source tree (`commands.go` calls
`focusCommand(openaiClient)` but the matching `focus.go` revision is
absent); per the spec it assigns the estimator's value and substitutes
the fixed default 5 on any estimator error, never failing goal
creation. -/
def estimateGoalPoints (configured : Bool) (resp : EstimatorResponse) : Int :=
  match CalculatePoints configured resp with
  | .ok p => p
  | .error _ => 5

/-- The next 1-based position of a new task:
`COALESCE(MAX(position), 0)` over the period's tasks, plus one. -/
def maxTaskPosition (l : List Task) (focusPeriodID : Nat) : Int :=
  ((l.filter (fun t => t.focusPeriodID == focusPeriodID)).map (fun t => t.position)).foldl max 0

/-- `AddTask` (`database.go` lines 107-125), with the `points` parameter
of the points-integrated revision (per the implementation summary,
`AddTask()` was updated to accept `points`; the pre-points revision in
the tree stores the task without it): append a task at position
`max(position)+1`, not completed. -/
def AddTask (db : DB) (focusPeriodID : Nat) (title description : String) (points : Int)
    (taskID : Nat) : DB × Task :=
  let task : Task :=
    { id := taskID, focusPeriodID := focusPeriodID, title := title,
      description := description, completed := false, completedAt := none,
      position := maxTaskPosition db.tasks focusPeriodID + 1, points := points }
  ({ db with tasks := db.tasks ++ [task] }, task)

/-- Modelled from the spec: `handleFocusAdd` of the points-integrated
`focus.go` — estimate the goal's point value and create the goal; a
total function, so goal creation never fails or blocks on estimator
failure. -/
def handleFocusAdd (db : DB) (focusPeriodID : Nat) (title : String) (configured : Bool)
    (resp : EstimatorResponse) (taskID : Nat) : DB × Task :=
  AddTask db focusPeriodID title "" (estimateGoalPoints configured resp) taskID

/-- Clamp bounds: the [1, 10] clamp of `CalculatePoints`. -/
theorem clamp_bounds (p : Int) :
    1 ≤ (if p < 1 then 1 else if p > 10 then 10 else p) ∧
    (if p < 1 then 1 else if p > 10 then 10 else p) ≤ 10 := by
  by_cases h1 : p < 1
  · rw [if_pos h1]
    omega
  · rw [if_neg h1]
    by_cases h2 : p > 10
    · rw [if_pos h2]
      omega
    · rw [if_neg h2]
      omega

/-- Every successful `CalculatePoints` result lies in [1, 10]. -/
theorem calculatePoints_bounds (configured : Bool) (resp : EstimatorResponse) (p : Int)
    (h : CalculatePoints configured resp = .ok p) : 1 ≤ p ∧ p ≤ 10 := by
  unfold CalculatePoints at h
  cases configured with
  | false =>
    simp only [Bool.not_false, if_true] at h
    cases h
    omega
  | true =>
    simp only [Bool.not_true, Bool.false_eq_true, if_false] at h
    cases resp with
    | apiError => cases h
    | noChoices => cases h
    | content s =>
      have h' : (match extractPoints s.trim with
          | none => Except.ok (5 : Int)
          | some n => Except.ok (if (n : Int) < 1 then (1 : Int)
              else if (n : Int) > 10 then (10 : Int) else (n : Int))) = Except.ok p := h
      cases hx : extractPoints s.trim with
      | none =>
        rw [hx] at h'
        cases h'
        omega
      | some n =>
        rw [hx] at h'
        cases h'
        exact clamp_bounds (n : Int)

/-- C9: every goal created through `handleFocusAdd` carries a point value
in [1, 10]; whenever the estimator call errs (API failure, timeout, empty
response) the fixed default 5 is substituted, the goal is still created
(appended to the task table), and no estimator error reaches the caller
(the result type carries no error). -/
theorem C9_addGoal_estimator_fallback (db : DB) (focusPeriodID : Nat) (title : String)
    (configured : Bool) (resp : EstimatorResponse) (taskID : Nat) :
    (1 ≤ (handleFocusAdd db focusPeriodID title configured resp taskID).2.points ∧
     (handleFocusAdd db focusPeriodID title configured resp taskID).2.points ≤ 10) ∧
    (∀ e, CalculatePoints configured resp = .error e →
      (handleFocusAdd db focusPeriodID title configured resp taskID).2.points = 5) ∧
    (handleFocusAdd db focusPeriodID title configured resp taskID).2
      ∈ (handleFocusAdd db focusPeriodID title configured resp taskID).1.tasks := by
  refine ⟨?_, ?_, ?_⟩
  · show 1 ≤ estimateGoalPoints configured resp ∧ estimateGoalPoints configured resp ≤ 10
    unfold estimateGoalPoints
    cases hcp : CalculatePoints configured resp with
    | ok p => exact calculatePoints_bounds configured resp p hcp
    | error e => exact ⟨by norm_num, by norm_num⟩
  · intro e he
    show estimateGoalPoints configured resp = 5
    unfold estimateGoalPoints
    rw [he]
  · show (handleFocusAdd db focusPeriodID title configured resp taskID).2
      ∈ db.tasks ++ [(handleFocusAdd db focusPeriodID title configured resp taskID).2]
    simp

/-- Witness for C9: a failing estimator call (API error with a configured
client) on the sample state — the goal is still created, with the
default 5 points. -/
theorem C9_witness :
    (1 ≤ (handleFocusAdd demoDB 5 "ship landing page" true .apiError 1).2.points ∧
     (handleFocusAdd demoDB 5 "ship landing page" true .apiError 1).2.points ≤ 10) ∧
    (CalculatePoints true .apiError = .error .estimatorFailure ∧
     (handleFocusAdd demoDB 5 "ship landing page" true .apiError 1).2.points = 5) := by
  have h := C9_addGoal_estimator_fallback demoDB 5 "ship landing page" true .apiError 1
  exact ⟨h.1, rfl, h.2.1 .estimatorFailure rfl⟩

/-- `CompleteTask` (`database.go` lines 128-153): fetch the task of the
period at the given position — `GoalNotFound` when absent,
`AlreadyCompleted` when its completion flag is set — otherwise mark it
completed, stamping the current time, and save it by primary key. -/
def CompleteTask (db : DB) (focusPeriodID : Nat) (position : Int) (now : Time) :
    Except Err (DB × Task) :=
  match db.tasks.find? (fun t => t.focusPeriodID == focusPeriodID && t.position == position) with
  | none => .error .goalNotFound
  | some t =>
    if t.completed then .error .alreadyCompleted
    else
      let t1 := { t with completed := true, completedAt := some now }
      .ok ({ db with tasks := updateWhere (fun x => x.id == t.id) (fun _ => t1) db.tasks }, t1)

/-- Result of the goal-completion flow: the new state, the error if any,
and the completed task. -/
structure CompleteResult where
  db : DB
  err : Option Err
  task : Option Task
deriving Repr, DecidableEq

/-- Modelled from the spec: the points-integrated `handleFocusComplete`
(`focus.go`) is missing from the source tree — the revision present
completes the task without awarding points, while `commands.go` and the
implementation summary reference the points-integrated revision. Per the
spec, a successful completion triggers a Point Ledger award of the
goal's stored point value scoped to this period. -/
def handleFocusComplete (db : DB) (user : User) (period : FocusPeriod) (goalNum : Int)
    (now : Time) : CompleteResult :=
  match CompleteTask db period.id goalNum now with
  | .error e => { db := db, err := some e, task := none }
  | .ok (db1, task) =>
    let r := AddPointsToUser db1 user.id period.id task.points period.guildID
      period.startDate period.endDate
    { db := r.1, err := r.2, task := some task }

/-- C2: goal completion fails with `GoalNotFound` when no goal occupies
the position and with `AlreadyCompleted` when it is already done (state
untouched in both cases); otherwise the goal is marked completed with the
current timestamp and the Point Ledger award of its stored point value is
triggered: the user's lifetime total and the period's sprint subtotal
both increase by the goal's stored point value. -/
theorem C2_completeGoal (db : DB) (user : User) (period : FocusPeriod) (goalNum : Int)
    (now : Time) :
    (db.tasks.find? (fun t => t.focusPeriodID == period.id && t.position == goalNum) = none →
      handleFocusComplete db user period goalNum now
        = { db := db, err := some .goalNotFound, task := none }) ∧
    (∀ t, db.tasks.find? (fun t => t.focusPeriodID == period.id && t.position == goalNum)
        = some t → t.completed = true →
      handleFocusComplete db user period goalNum now
        = { db := db, err := some .alreadyCompleted, task := none }) ∧
    (∀ t u0, db.tasks.find? (fun t => t.focusPeriodID == period.id && t.position == goalNum)
        = some t → t.completed = false → findUser db user.id = some u0 →
      (handleFocusComplete db user period goalNum now).err = none ∧
      (handleFocusComplete db user period goalNum now).task
        = some { t with completed := true, completedAt := some now } ∧
      findUser (handleFocusComplete db user period goalNum now).db user.id
        = some { u0 with totalPoints := u0.totalPoints + t.points } ∧
      (findSprint db period.id user.id = none →
        findSprint (handleFocusComplete db user period goalNum now).db period.id user.id
          = some { focusPeriodID := period.id, userID := user.id, guildID := period.guildID,
                   points := t.points, startDate := period.startDate,
                   endDate := period.endDate }) ∧
      (∀ sp, findSprint db period.id user.id = some sp →
        findSprint (handleFocusComplete db user period goalNum now).db period.id user.id
          = some { sp with points := sp.points + t.points })) := by
  refine ⟨?_, ?_, ?_⟩
  · intro hnone
    unfold handleFocusComplete CompleteTask
    rw [hnone]
  · intro t ht hc
    unfold handleFocusComplete CompleteTask
    rw [ht]
    simp only [hc, if_true]
  · intro t u0 ht hc hu
    unfold handleFocusComplete CompleteTask
    rw [ht]
    simp only [hc, Bool.false_eq_true, if_false]
    obtain ⟨h1, h2, h3, h4⟩ := addPointsToUser_ok
      { db with
        tasks := updateWhere (fun x => x.id == t.id)
            (fun _ => { t with completed := true, completedAt := some now }) db.tasks }
      user.id period.id t.points period.guildID period.startDate period.endDate u0 hu
    exact ⟨h1, trivial, h2, h3, h4⟩

/-- Witness for C2 at a concrete state: one user, one period, one pending
goal worth 8 points at position 1; completing it succeeds, stamps the
task and credits 8 points to the lifetime total and a fresh sprint row. -/
theorem C2_witness :
    (let db0 : DB :=
      { users := [{ id := 1, discordID := "d1", guildID := "g", username := "alice",
                    totalPoints := 0 }],
        periods := [{ id := 5, userID := 1, guildID := "g", startDate := ⟨0, 0⟩,
                      endDate := ⟨14, 0⟩, leaderboardPosted := false }],
        tasks := [{ id := 3, focusPeriodID := 5, title := "ship", description := "",
                    completed := false, completedAt := none, position := 1, points := 8 }],
        sprintPoints := [], guildConfigs := [], standups := [], streaks := [] }
     let user : User := { id := 1, discordID := "d1", guildID := "g", username := "alice",
                          totalPoints := 0 }
     let period : FocusPeriod := { id := 5, userID := 1, guildID := "g", startDate := ⟨0, 0⟩,
                                   endDate := ⟨14, 0⟩, leaderboardPosted := false }
     db0.tasks.find? (fun t => t.focusPeriodID == period.id && t.position == (1 : Int))
        = some { id := 3, focusPeriodID := 5, title := "ship", description := "",
                 completed := false, completedAt := none, position := 1, points := 8 } ∧
     (handleFocusComplete db0 user period 1 ⟨1, 10⟩).err = none ∧
     findUser (handleFocusComplete db0 user period 1 ⟨1, 10⟩).db 1
        = some { id := 1, discordID := "d1", guildID := "g", username := "alice",
                 totalPoints := 8 } ∧
     findSprint (handleFocusComplete db0 user period 1 ⟨1, 10⟩).db 5 1
        = some { focusPeriodID := 5, userID := 1, guildID := "g", points := 8,
                 startDate := ⟨0, 0⟩, endDate := ⟨14, 0⟩ }) := by
  have h := (C2_completeGoal
    { users := [{ id := 1, discordID := "d1", guildID := "g", username := "alice",
                  totalPoints := 0 }],
      periods := [{ id := 5, userID := 1, guildID := "g", startDate := ⟨0, 0⟩,
                    endDate := ⟨14, 0⟩, leaderboardPosted := false }],
      tasks := [{ id := 3, focusPeriodID := 5, title := "ship", description := "",
                  completed := false, completedAt := none, position := 1, points := 8 }],
      sprintPoints := [], guildConfigs := [], standups := [], streaks := [] }
    { id := 1, discordID := "d1", guildID := "g", username := "alice", totalPoints := 0 }
    { id := 5, userID := 1, guildID := "g", startDate := ⟨0, 0⟩, endDate := ⟨14, 0⟩,
      leaderboardPosted := false }
    1 ⟨1, 10⟩).2.2
    { id := 3, focusPeriodID := 5, title := "ship", description := "",
      completed := false, completedAt := none, position := 1, points := 8 }
    { id := 1, discordID := "d1", guildID := "g", username := "alice", totalPoints := 0 }
    (by decide) rfl (by decide)
  obtain ⟨h1, _, h3, h4, _⟩ := h
  exact ⟨by decide, h1, h3, h4 (by decide)⟩

/-- `LeaderboardEntry` (`points_operations.go` lines 12-19). -/
structure LeaderboardEntry where
  rank : Nat
  discordID : String
  username : String
  points : Int
  tasksCount : Nat
  completedAt : Option Time
deriving Repr, DecidableEq

/-- SQL ascending order on the nullable `completed_at` aggregate:
SQLite sorts NULLs first in ascending order. -/
def optTimeBle : Option Time → Option Time → Bool
  | none, _ => true
  | some _, none => false
  | some a, some b => Time.ble a b

/-- The `ORDER BY points DESC, completed_at ASC` relation shared by both
leaderboard queries. -/
def entryLe (a b : LeaderboardEntry) : Bool :=
  decide (b.points < a.points)
    || (decide (a.points = b.points) && optTimeBle a.completedAt b.completedAt)

/-- The propositional form of `entryLe`, used as the sort relation. -/
def entryRel : LeaderboardEntry → LeaderboardEntry → Prop :=
  fun a b => entryLe a b = true

instance : DecidableRel entryRel :=
  fun a b => inferInstanceAs (Decidable (entryLe a b = true))

theorem time_ble_total (a b : Time) : Time.ble a b = true ∨ Time.ble b a = true := by
  simp only [Time.ble, Bool.or_eq_true, Bool.and_eq_true, decide_eq_true_eq]
  omega

theorem time_ble_trans (a b c : Time) (h1 : Time.ble a b = true) (h2 : Time.ble b c = true) :
    Time.ble a c = true := by
  simp only [Time.ble, Bool.or_eq_true, Bool.and_eq_true, decide_eq_true_eq] at h1 h2 ⊢
  omega

theorem optTimeBle_total (a b : Option Time) : optTimeBle a b = true ∨ optTimeBle b a = true := by
  cases a with
  | none => left; rfl
  | some x =>
    cases b with
    | none => right; rfl
    | some y => exact time_ble_total x y

theorem optTimeBle_trans (a b c : Option Time) (h1 : optTimeBle a b = true)
    (h2 : optTimeBle b c = true) : optTimeBle a c = true := by
  cases a with
  | none => rfl
  | some x =>
    cases b with
    | none => cases h1
    | some y =>
      cases c with
      | none => cases h2
      | some z => exact time_ble_trans x y z h1 h2

theorem entryRel_iff (a b : LeaderboardEntry) :
    entryRel a b ↔ b.points < a.points ∨
      (a.points = b.points ∧ optTimeBle a.completedAt b.completedAt = true) := by
  simp [entryRel, entryLe]

instance : IsTotal LeaderboardEntry entryRel := by
  refine ⟨fun a b => ?_⟩
  rw [entryRel_iff, entryRel_iff]
  rcases lt_trichotomy a.points b.points with h | h | h
  · right; left; exact h
  · rcases optTimeBle_total a.completedAt b.completedAt with ht | ht
    · left; right; exact ⟨h, ht⟩
    · right; right; exact ⟨h.symm, ht⟩
  · left; left; exact h

instance : IsTrans LeaderboardEntry entryRel := by
  refine ⟨fun a b c hab hbc => ?_⟩
  rw [entryRel_iff] at hab hbc ⊢
  rcases hab with h1 | ⟨h1, h1t⟩ <;> rcases hbc with h2 | ⟨h2, h2t⟩
  · left; omega
  · left; omega
  · left; omega
  · right; exact ⟨by omega, optTimeBle_trans _ _ _ h1t h2t⟩

/-- Sequential rank assignment of the row loops of both leaderboard
queries (`rank := 1; for rows.Next() { entry.Rank = rank; rank++ }`). -/
def rankify (n : Nat) : List LeaderboardEntry → List LeaderboardEntry
  | [] => []
  | e :: es => { e with rank := n } :: rankify (n + 1) es

theorem length_rankify (n : Nat) (l : List LeaderboardEntry) :
    (rankify n l).length = l.length := by
  induction l generalizing n with
  | nil => rfl
  | cons e es ih => simp [rankify, ih]

theorem get_rankify (l : List LeaderboardEntry) (n i : Nat) (h : i < (rankify n l).length)
    (h2 : i < l.length) :
    (rankify n l).get ⟨i, h⟩ = { l.get ⟨i, h2⟩ with rank := n + i } := by
  induction l generalizing n i with
  | nil => cases h2
  | cons e es ih =>
    cases i with
    | zero => rfl
    | succ i =>
      have h' : i < (rankify (n + 1) es).length := by
        rw [length_rankify]
        exact Nat.lt_of_succ_lt_succ (by simpa using h2)
      have h2' : i < es.length := by simpa using Nat.lt_of_succ_lt_succ (by simpa using h2)
      show (rankify (n + 1) es).get ⟨i, h'⟩ = _
      rw [ih (n + 1) i h' h2', show n + 1 + i = n + (i + 1) from by omega]
      rfl

theorem mem_rankify (e : LeaderboardEntry) (n : Nat) (l : List LeaderboardEntry)
    (he : e ∈ rankify n l) : ∃ e' ∈ l, e = { e' with rank := e.rank } := by
  induction l generalizing n with
  | nil => cases he
  | cons x xs ih =>
    rcases List.mem_cons.1 he with h | h
    · exact ⟨x, List.mem_cons_self x xs, by rw [h]⟩
    · obtain ⟨e', he', heq⟩ := ih (n + 1) h
      exact ⟨e', List.mem_cons_of_mem x he', heq⟩

theorem rankify_mem (e' : LeaderboardEntry) (n : Nat) (l : List LeaderboardEntry)
    (he : e' ∈ l) : ∃ e ∈ rankify n l, e = { e' with rank := e.rank } := by
  induction l generalizing n with
  | nil => cases he
  | cons x xs ih =>
    rcases List.mem_cons.1 he with h | h
    · subst h
      exact ⟨{ e' with rank := n }, List.mem_cons_self _ _, rfl⟩
    · obtain ⟨e, he2, heq⟩ := ih (n + 1) h
      exact ⟨e, List.mem_cons_of_mem _ he2, heq⟩

/-- The shared shape of both leaderboard queries: sort the candidate
entries by points descending then completion time ascending, truncate to
`limit`, and number the ranks from 1. -/
def rankedBoard (l : List LeaderboardEntry) (limit : Nat) : List LeaderboardEntry :=
  rankify 1 ((l.insertionSort entryRel).take limit)

theorem rankedBoard_length_le (l : List LeaderboardEntry) (limit : Nat) :
    (rankedBoard l limit).length ≤ limit := by
  unfold rankedBoard
  rw [length_rankify]
  exact (List.length_take _ _).le.trans (min_le_left _ _)

theorem rankedBoard_mem (e : LeaderboardEntry) (l : List LeaderboardEntry) (limit : Nat)
    (he : e ∈ rankedBoard l limit) : ∃ e' ∈ l, e = { e' with rank := e.rank } := by
  unfold rankedBoard at he
  obtain ⟨e', he', heq⟩ := mem_rankify _ _ _ he
  have h1 : e' ∈ (l.insertionSort entryRel) := (List.take_sublist _ _).subset he'
  exact ⟨e', (List.perm_insertionSort entryRel l).subset h1, heq⟩

theorem rankedBoard_complete (e' : LeaderboardEntry) (l : List LeaderboardEntry) (limit : Nat)
    (hlen : l.length ≤ limit) (he : e' ∈ l) :
    ∃ e ∈ rankedBoard l limit, e = { e' with rank := e.rank } := by
  unfold rankedBoard
  have hsort : e' ∈ l.insertionSort entryRel :=
    (List.perm_insertionSort entryRel l).symm.subset he
  have hall : (l.insertionSort entryRel).take limit = l.insertionSort entryRel :=
    List.take_of_length_le (by rw [(List.perm_insertionSort entryRel l).length_eq]; exact hlen)
  rw [hall]
  exact rankify_mem e' 1 _ hsort

theorem rankedBoard_rank (l : List LeaderboardEntry) (limit : Nat) (i : Nat)
    (h : i < (rankedBoard l limit).length) :
    ((rankedBoard l limit).get ⟨i, h⟩).rank = i + 1 := by
  unfold rankedBoard at h ⊢
  have h2 : i < ((l.insertionSort entryRel).take limit).length := by
    rw [length_rankify] at h
    exact h
  rw [get_rankify _ 1 i h h2]
  show 1 + i = i + 1
  omega

theorem pairwise_rankify (R : LeaderboardEntry → LeaderboardEntry → Prop)
    (hR : ∀ (a b : LeaderboardEntry) (r1 r2 : Nat),
      R a b → R { a with rank := r1 } { b with rank := r2 })
    (n : Nat) (l : List LeaderboardEntry) (h : List.Pairwise R l) :
    List.Pairwise R (rankify n l) := by
  induction l generalizing n with
  | nil => exact List.Pairwise.nil
  | cons x xs ih =>
    rw [List.pairwise_cons] at h
    refine List.Pairwise.cons ?_ (ih (n + 1) h.2)
    intro y hy
    obtain ⟨e', he', heq⟩ := mem_rankify y (n + 1) xs hy
    rw [heq]
    exact hR x e' n y.rank (h.1 e' he')

theorem rankedBoard_pairwise (l : List LeaderboardEntry) (limit : Nat) :
    List.Pairwise entryRel (rankedBoard l limit) := by
  unfold rankedBoard
  refine pairwise_rankify entryRel (fun a b r1 r2 h => h) 1 _ ?_
  exact (List.sorted_insertionSort entryRel l).sublist (List.take_sublist _ _)

/-- The completed tasks attributed to a user across all of the user's
focus periods (`LEFT JOIN focus_periods ... LEFT JOIN tasks ... AND
t.completed = 1` of the all-time query). -/
def completedTasksOfUser (db : DB) (userID : Nat) : List Task :=
  db.tasks.filter (fun t => t.completed
    && db.periods.any (fun fp => fp.id == t.focusPeriodID && fp.userID == userID))

/-- The completed tasks of one focus period (the join of the sprint
query). -/
def completedTasksOfPeriod (db : DB) (focusPeriodID : Nat) : List Task :=
  db.tasks.filter (fun t => t.focusPeriodID == focusPeriodID && t.completed)

/-- `MAX(t.completed_at)` over a task list: `none` when no completed
task carries a timestamp (SQL NULL). -/
def maxCompletedAt (ts : List Task) : Option Time :=
  ts.foldl (fun acc t =>
    match t.completedAt with
    | none => acc
    | some c =>
      match acc with
      | none => some c
      | some m => some (if Time.ble m c then c else m)) none

/-- One row of the all-time query: the user's lifetime total, completed
task count and latest completion timestamp. -/
def allTimeEntry (db : DB) (u : User) : LeaderboardEntry :=
  { rank := 0, discordID := u.discordID, username := u.username, points := u.totalPoints,
    tasksCount := (completedTasksOfUser db u.id).length,
    completedAt := maxCompletedAt (completedTasksOfUser db u.id) }

/-- `GetAllTimeLeaderboard` (`points_operations.go` lines 137-178):
users of the guild with `total_points > 0` (the `HAVING`), ordered by
`total_points DESC, completed_at ASC`, limited and rank-numbered. -/
def GetAllTimeLeaderboard (db : DB) (guildID : String) (limit : Nat) : List LeaderboardEntry :=
  rankedBoard
    ((db.users.filter (fun u => u.guildID == guildID && decide (0 < u.totalPoints))).map
      (allTimeEntry db))
    limit

/-- One row of the sprint query: the sprint subtotal joined to its user,
with the period's completed task count and latest completion. -/
def sprintEntry (db : DB) (sp : SprintPoints) (u : User) : LeaderboardEntry :=
  { rank := 0, discordID := u.discordID, username := u.username, points := sp.points,
    tasksCount := (completedTasksOfPeriod db sp.focusPeriodID).length,
    completedAt := maxCompletedAt (completedTasksOfPeriod db sp.focusPeriodID) }

/-- The rows the sprint query ranges over: sprint rows of the guild whose
cached window satisfies `start_date <= now AND end_date >= now` with
`points > 0` (the `HAVING`), inner-joined to their user. -/
def sprintCandidates (db : DB) (guildID : String) (now : Time) : List (SprintPoints × User) :=
  (db.sprintPoints.filter (fun sp => sp.guildID == guildID
      && Time.ble sp.startDate now && Time.ble now sp.endDate
      && decide (0 < sp.points))).filterMap
    (fun sp => (findUser db sp.userID).map (fun u => (sp, u)))

/-- `GetSprintLeaderboard` (`points_operations.go` lines 181-225), with
the query's `time.Now()` passed explicitly. -/
def GetSprintLeaderboard (db : DB) (guildID : String) (now : Time) (limit : Nat) :
    List LeaderboardEntry :=
  rankedBoard ((sprintCandidates db guildID now).map (fun x => sprintEntry db x.1 x.2)) limit

/-- Origin of every all-time leaderboard entry: a user of the guild with
a positive lifetime total, whose stats fill the entry. -/
theorem allTime_origin (db : DB) (guildID : String) (limit : Nat) (e : LeaderboardEntry)
    (he : e ∈ GetAllTimeLeaderboard db guildID limit) :
    ∃ u, u ∈ db.users ∧ u.guildID = guildID ∧ 0 < u.totalPoints ∧
      e = { allTimeEntry db u with rank := e.rank } := by
  obtain ⟨e', he', heq⟩ := rankedBoard_mem e _ limit he
  obtain ⟨u, hu, hue⟩ := List.mem_map.1 he'
  have hf := List.mem_filter.1 hu
  have hprops := hf.2
  rw [Bool.and_eq_true, beq_iff_eq, decide_eq_true_eq] at hprops
  refine ⟨u, hf.1, hprops.1, hprops.2, ?_⟩
  rw [heq, hue]

/-- C8: the all-time leaderboard returns at most `limit` entries; every
entry stems from a guild user with positive lifetime total (users with
total ≤ 0 are excluded); ranks are numbered 1, 2, 3, …; entries are
ordered by points descending, and equal-point entries by the qualifying
completion timestamp (`MAX(completed_at)`, the moment the user reached
the tied total — NULL first) ascending; the rank-1 entry carries the
highest point total. -/
theorem C8_alltime_ranking (db : DB) (guildID : String) (limit : Nat) :
    (GetAllTimeLeaderboard db guildID limit).length ≤ limit ∧
    (∀ e ∈ GetAllTimeLeaderboard db guildID limit,
      ∃ u, u ∈ db.users ∧ u.guildID = guildID ∧ 0 < u.totalPoints ∧
        e = { allTimeEntry db u with rank := e.rank }) ∧
    (∀ e ∈ GetAllTimeLeaderboard db guildID limit, 0 < e.points) ∧
    (∀ (i : Nat) (h : i < (GetAllTimeLeaderboard db guildID limit).length),
      ((GetAllTimeLeaderboard db guildID limit).get ⟨i, h⟩).rank = i + 1) ∧
    (∀ (i j : Fin (GetAllTimeLeaderboard db guildID limit).length), i < j →
      ((GetAllTimeLeaderboard db guildID limit).get j).points
          < ((GetAllTimeLeaderboard db guildID limit).get i).points ∨
        (((GetAllTimeLeaderboard db guildID limit).get i).points
            = ((GetAllTimeLeaderboard db guildID limit).get j).points ∧
          optTimeBle ((GetAllTimeLeaderboard db guildID limit).get i).completedAt
            ((GetAllTimeLeaderboard db guildID limit).get j).completedAt = true)) ∧
    (∀ (j : Fin (GetAllTimeLeaderboard db guildID limit).length)
        (h0 : 0 < (GetAllTimeLeaderboard db guildID limit).length),
      ((GetAllTimeLeaderboard db guildID limit).get j).points
        ≤ ((GetAllTimeLeaderboard db guildID limit).get ⟨0, h0⟩).points) := by
  refine ⟨rankedBoard_length_le _ _, allTime_origin db guildID limit, ?_, ?_, ?_, ?_⟩
  · intro e he
    obtain ⟨u, _, _, hpos, heq⟩ := allTime_origin db guildID limit e he
    rw [heq]
    exact hpos
  · exact rankedBoard_rank _ limit
  · intro i j hij
    exact (entryRel_iff _ _).1 (List.pairwise_iff_get.1 (rankedBoard_pairwise _ limit) i j hij)
  · intro j h0
    by_cases hj : j.1 = 0
    · have : j = ⟨0, h0⟩ := Fin.ext hj
      rw [this]
    · have hlt : (⟨0, h0⟩ : Fin (GetAllTimeLeaderboard db guildID limit).length) < j :=
        Fin.mk_lt_mk.2 (Nat.pos_of_ne_zero hj)
      have hrel : ((GetAllTimeLeaderboard db guildID limit).get j).points
            < ((GetAllTimeLeaderboard db guildID limit).get ⟨0, h0⟩).points ∨
          (((GetAllTimeLeaderboard db guildID limit).get ⟨0, h0⟩).points
              = ((GetAllTimeLeaderboard db guildID limit).get j).points ∧
            optTimeBle ((GetAllTimeLeaderboard db guildID limit).get ⟨0, h0⟩).completedAt
              ((GetAllTimeLeaderboard db guildID limit).get j).completedAt = true) :=
        (entryRel_iff _ _).1 (List.pairwise_iff_get.1 (rankedBoard_pairwise _ limit) ⟨0, h0⟩ j hlt)
      rcases hrel with h | ⟨h, _⟩ <;> omega

/-- A two-user state for the all-time leaderboard witness: alice has 10
lifetime points, bob has 5, carol has 0 (and must not appear). -/
def c8db : DB :=
  { users := [{ id := 1, discordID := "d1", guildID := "g", username := "alice",
                totalPoints := 10 },
              { id := 2, discordID := "d2", guildID := "g", username := "bob",
                totalPoints := 5 },
              { id := 3, discordID := "d3", guildID := "g", username := "carol",
                totalPoints := 0 }],
    periods := [], tasks := [], sprintPoints := [], guildConfigs := [],
    standups := [], streaks := [] }

/-- Witness for C8 on `c8db`: two entries (carol excluded), rank 1 given
to the highest total, and the order property discharged between the two
entries. -/
theorem C8_witness :
    (GetAllTimeLeaderboard c8db "g" 10).length ≤ 10 ∧
    ((GetAllTimeLeaderboard c8db "g" 10).get ⟨0, by decide⟩).rank = 0 + 1 ∧
    (((GetAllTimeLeaderboard c8db "g" 10).get (⟨1, by decide⟩ :
          Fin (GetAllTimeLeaderboard c8db "g" 10).length)).points
        < ((GetAllTimeLeaderboard c8db "g" 10).get ⟨0, by decide⟩).points ∨
      (((GetAllTimeLeaderboard c8db "g" 10).get ⟨0, by decide⟩).points
          = ((GetAllTimeLeaderboard c8db "g" 10).get ⟨1, by decide⟩).points ∧
        optTimeBle ((GetAllTimeLeaderboard c8db "g" 10).get ⟨0, by decide⟩).completedAt
          ((GetAllTimeLeaderboard c8db "g" 10).get ⟨1, by decide⟩).completedAt = true)) := by
  have h := C8_alltime_ranking c8db "g" 10
  exact ⟨h.1, h.2.2.2.1 0 (by decide),
    h.2.2.2.2.1 ⟨0, by decide⟩ ⟨1, by decide⟩ (by decide)⟩

/-- The user of the sprint-window scenario. -/
def c6user : User :=
  { id := 1, discordID := "d1", guildID := "g", username := "alice", totalPoints := 5 }

/-- A sprint row whose cached window is day 0 to day 10, holding 5
points. -/
def c6sp : SprintPoints :=
  { focusPeriodID := 7, userID := 1, guildID := "g", points := 5,
    startDate := ⟨0, 0⟩, endDate := ⟨10, 0⟩ }

/-- The sprint-window scenario state. -/
def c6db : DB :=
  { users := [c6user], periods := [], tasks := [], sprintPoints := [c6sp],
    guildConfigs := [], standups := [], streaks := [] }

/-- Counterexample to C6 as stated: the sprint query keeps a row when
`now` equals the cached window end (`end_date >= now` is inclusive), so
at `now = P.end` — where the claim demands exclusion (`now >= P.end`) —
the row still appears on the leaderboard. -/
theorem C6_counterexample :
    Time.ble c6sp.endDate ⟨10, 0⟩ = true ∧
    (GetSprintLeaderboard c6db "g" ⟨10, 0⟩ 10).length = 1 ∧
    ((GetSprintLeaderboard c6db "g" ⟨10, 0⟩ 10).get ⟨0, by decide⟩).points = 5 ∧
    ((GetSprintLeaderboard c6db "g" ⟨10, 0⟩ 10).get ⟨0, by decide⟩).discordID
      = c6user.discordID := by
  decide

/-- C6 (amended): a sprint row appears in `GetSprintLeaderboard` results
exactly while `now` lies in the closed window `[start, end]` cached on
the row (`start_date <= now AND end_date >= now`): every returned entry
stems from a guild row with positive subtotal whose closed window
contains `now`, and conversely every such row (joined to its user)
appears whenever `limit` accommodates the candidates. -/
theorem C6_sprint_window (db : DB) (guildID : String) (now : Time) (limit : Nat) :
    (∀ e ∈ GetSprintLeaderboard db guildID now limit,
      ∃ sp u, sp ∈ db.sprintPoints ∧ findUser db sp.userID = some u ∧
        sp.guildID = guildID ∧ Time.ble sp.startDate now = true ∧
        Time.ble now sp.endDate = true ∧ 0 < sp.points ∧
        e = { sprintEntry db sp u with rank := e.rank }) ∧
    (∀ sp u, sp ∈ db.sprintPoints → findUser db sp.userID = some u →
      sp.guildID = guildID → Time.ble sp.startDate now = true →
      Time.ble now sp.endDate = true → 0 < sp.points →
      (sprintCandidates db guildID now).length ≤ limit →
      ∃ e ∈ GetSprintLeaderboard db guildID now limit,
        e = { sprintEntry db sp u with rank := e.rank }) := by
  constructor
  · intro e he
    obtain ⟨e', he', heq⟩ := rankedBoard_mem e _ limit he
    obtain ⟨⟨sp, u⟩, hmem, hue⟩ := List.mem_map.1 he'
    obtain ⟨sp', hsp', hfm⟩ := List.mem_filterMap.1 hmem
    obtain ⟨u', hu', hpair⟩ := Option.map_eq_some'.1 hfm
    have hsp2 : sp' = sp := congrArg Prod.fst hpair
    have hu2 : u' = u := congrArg Prod.snd hpair
    subst hsp2
    subst hu2
    have hf := List.mem_filter.1 hsp'
    have hprops := hf.2
    rw [Bool.and_eq_true, Bool.and_eq_true, Bool.and_eq_true, beq_iff_eq,
      decide_eq_true_eq] at hprops
    refine ⟨sp', u', hf.1, hu', hprops.1.1.1, hprops.1.1.2, hprops.1.2, hprops.2, ?_⟩
    rw [heq, hue]
  · intro sp u hmem hfu hg hs he hp hlen
    have hfilter : sp ∈ db.sprintPoints.filter (fun sp => sp.guildID == guildID
        && Time.ble sp.startDate now && Time.ble now sp.endDate
        && decide (0 < sp.points)) := by
      refine List.mem_filter.2 ⟨hmem, ?_⟩
      rw [Bool.and_eq_true, Bool.and_eq_true, Bool.and_eq_true, beq_iff_eq,
        decide_eq_true_eq]
      exact ⟨⟨⟨hg, hs⟩, he⟩, hp⟩
    have hcand : (sp, u) ∈ sprintCandidates db guildID now := by
      refine List.mem_filterMap.2 ⟨sp, hfilter, ?_⟩
      rw [hfu]
      rfl
    have hentry : sprintEntry db sp u
        ∈ (sprintCandidates db guildID now).map (fun x => sprintEntry db x.1 x.2) :=
      List.mem_map.2 ⟨(sp, u), hcand, rfl⟩
    exact rankedBoard_complete (sprintEntry db sp u) _ limit
      (by rw [List.length_map]; exact hlen) hentry

/-- Witness for C6 (amended) on the scenario state with `now = day 5`
inside the window: the row's entry appears. -/
theorem C6_witness :
    ∃ e ∈ GetSprintLeaderboard c6db "g" ⟨5, 0⟩ 10,
      e = { sprintEntry c6db c6sp c6user with rank := e.rank } :=
  (C6_sprint_window c6db "g" ⟨5, 0⟩ 10).2 c6sp c6user (by decide) (by decide) (by decide)
    (by decide) (by decide) (by decide) (by decide)

/-- `GetOrCreateGuildConfig` (`points_operations.go` lines 22-41): fetch
the config row for the guild, creating an empty one when absent. -/
def GetOrCreateGuildConfig (db : DB) (guildID : String) : DB × GuildConfig :=
  match db.guildConfigs.find? (fun c => c.guildID == guildID) with
  | none =>
    ({ db with
       guildConfigs := db.guildConfigs ++ [{ guildID := guildID, leaderboardChannel := "" }] },
     { guildID := guildID, leaderboardChannel := "" })
  | some c => (db, c)

/-- `GetLeaderboardChannel` (`points_operations.go` lines 59-65). -/
def GetLeaderboardChannel (db : DB) (guildID : String) : DB × String :=
  ((GetOrCreateGuildConfig db guildID).1, (GetOrCreateGuildConfig db guildID).2.leaderboardChannel)

/-- `GetEndedPeriodsNeedingLeaderboard` (`points_operations.go` lines
256-269): periods of the guild with `end_date < now` and
`leaderboard_posted = false`. -/
def GetEndedPeriodsNeedingLeaderboard (db : DB) (guildID : String) (now : Time) :
    List FocusPeriod :=
  db.periods.filter (fun p => p.guildID == guildID && Time.blt p.endDate now
    && !p.leaderboardPosted)

/-- `MarkLeaderboardPosted` (`points_operations.go` lines 247-253):
`UPDATE focus_periods SET leaderboard_posted = true WHERE id = ?`. -/
def MarkLeaderboardPosted (db : DB) (focusPeriodID : Nat) : DB :=
  { db with
    periods := updateWhere (fun p => p.id == focusPeriodID)
        (fun p => { p with leaderboardPosted := true }) db.periods }

/-- `postSprintLeaderboard` (`scheduler.go` lines 326-372): posts one
message with the top-10 sprint leaderboard, skipping when it is empty;
returns the number of messages emitted. -/
def postSprintLeaderboard (db : DB) (guildID : String) (now : Time) : Nat :=
  if (GetSprintLeaderboard db guildID now 10).isEmpty then 0 else 1

/-- `checkEndedPeriodsForGuild` (`scheduler.go` lines 288-323): resolve
the guild's leaderboard channel (absent configuration skips silently),
fetch the ended-unposted periods, return early when none, otherwise post
one sprint leaderboard message and mark every fetched period posted. -/
def checkEndedPeriodsForGuild (db : DB) (guildID : String) (now : Time) : DB × Nat :=
  let pc := GetLeaderboardChannel db guildID
  if pc.2 = "" then (pc.1, 0)
  else
    let periods := GetEndedPeriodsNeedingLeaderboard pc.1 guildID now
    if periods.isEmpty then (pc.1, 0)
    else
      let posts := postSprintLeaderboard pc.1 guildID now
      (periods.foldl (fun d p => MarkLeaderboardPosted d p.id) pc.1, posts)

/-- `GetAllGuildsWithActivePeriods` (`database.go` lines 201-215):
distinct guild ids of periods with `start_date <= now AND end_date >=
now`. -/
def GetAllGuildsWithActivePeriods (db : DB) (now : Time) : List String :=
  ((db.periods.filter (fun p => Time.ble p.startDate now && Time.ble now p.endDate)).map
    (fun p => p.guildID)).dedup

/-- One step of the guild loop of `checkEndedFocusPeriods`, logging how
many leaderboard messages were posted for the guild. -/
def sweepStep (now : Time) (acc : DB × List (String × Nat)) (g : String) :
    DB × List (String × Nat) :=
  ((checkEndedPeriodsForGuild acc.1 g now).1,
   acc.2 ++ [(g, (checkEndedPeriodsForGuild acc.1 g now).2)])

/-- `checkEndedFocusPeriods` (`scheduler.go` lines 273-285): sweep every
guild returned by `GetAllGuildsWithActivePeriods`. -/
def checkEndedFocusPeriods (db : DB) (now : Time) : DB × List (String × Nat) :=
  (GetAllGuildsWithActivePeriods db now).foldl (sweepStep now) (db, [])

theorem getOrCreate_after (db : DB) (guildID : String) :
    (GetOrCreateGuildConfig db guildID).1.guildConfigs.find? (fun c => c.guildID == guildID)
      = some (GetOrCreateGuildConfig db guildID).2 := by
  unfold GetOrCreateGuildConfig
  cases hf : db.guildConfigs.find? (fun c => c.guildID == guildID) with
  | none =>
    show (db.guildConfigs
        ++ [({ guildID := guildID, leaderboardChannel := "" } : GuildConfig)]).find? _ = _
    rw [find?_append_none _ _ _ hf]
    simp [List.find?]
  | some c => exact hf

theorem getOrCreate_of_found (db : DB) (guildID : String) (c : GuildConfig)
    (h : db.guildConfigs.find? (fun c => c.guildID == guildID) = some c) :
    GetOrCreateGuildConfig db guildID = (db, c) := by
  unfold GetOrCreateGuildConfig
  rw [h]

theorem foldl_mark_guildConfigs (L : List FocusPeriod) (db : DB) :
    (L.foldl (fun d p => MarkLeaderboardPosted d p.id) db).guildConfigs = db.guildConfigs := by
  induction L generalizing db with
  | nil => rfl
  | cons q L ih => exact ih (MarkLeaderboardPosted db q.id)

theorem foldl_mark_periods (L : List FocusPeriod) (db : DB) :
    (L.foldl (fun d p => MarkLeaderboardPosted d p.id) db).periods
      = db.periods.map (fun p =>
          if L.any (fun q => q.id == p.id) then { p with leaderboardPosted := true } else p) := by
  induction L generalizing db with
  | nil => simp
  | cons q L ih =>
    rw [List.foldl_cons, ih]
    show (MarkLeaderboardPosted db q.id).periods.map _ = _
    unfold MarkLeaderboardPosted updateWhere
    simp only [List.map_map]
    refine List.map_congr_left ?_
    intro p _
    simp only [Function.comp]
    by_cases hpq : (p.id == q.id) = true
    · have hq : (q.id == p.id) = true := by
        rw [beq_iff_eq] at hpq ⊢
        omega
      rw [if_pos hpq]
      simp only [List.any_cons, hq, Bool.true_or, if_true]
      by_cases hL : (L.any (fun q2 => q2.id == p.id)) = true
      · rw [if_pos (by simpa using hL)]
      · rw [if_neg (by simpa using hL)]
    · have hq : (q.id == p.id) = false := by
        rw [Bool.eq_false_iff]
        intro hx
        rw [beq_iff_eq] at hx hpq
        exact hpq (by omega)
      rw [if_neg hpq]
      simp only [List.any_cons, hq, Bool.false_or]

/-- Branch characterization of `checkEndedPeriodsForGuild`. -/
theorem checkGuild_cases (db : DB) (guildID : String) (now : Time) :
    checkEndedPeriodsForGuild db guildID now
      = (if (GetOrCreateGuildConfig db guildID).2.leaderboardChannel = ""
         then ((GetOrCreateGuildConfig db guildID).1, 0)
         else if (GetEndedPeriodsNeedingLeaderboard (GetOrCreateGuildConfig db guildID).1
             guildID now).isEmpty
         then ((GetOrCreateGuildConfig db guildID).1, 0)
         else ((GetEndedPeriodsNeedingLeaderboard (GetOrCreateGuildConfig db guildID).1
               guildID now).foldl (fun d p => MarkLeaderboardPosted d p.id)
             (GetOrCreateGuildConfig db guildID).1,
           postSprintLeaderboard (GetOrCreateGuildConfig db guildID).1 guildID now)) := rfl

/-- C7: running the ended-period sweep for a community twice, when no
period ends between the runs (every period ended at the second run's
clock had already ended at the first run's clock), finalizes zero
additional periods and posts zero additional leaderboard messages: the
second run returns the first run's state unchanged with a zero post
count, because the first run marked every fetched ended-unfinalized
period as posted and the second run's query finds none. -/
theorem C7_sweep_idempotent (db : DB) (guildID : String) (now now2 : Time)
    (hnonew : ∀ p ∈ (checkEndedPeriodsForGuild db guildID now).1.periods,
      Time.blt p.endDate now2 = true → Time.blt p.endDate now = true) :
    checkEndedPeriodsForGuild (checkEndedPeriodsForGuild db guildID now).1 guildID now2
      = ((checkEndedPeriodsForGuild db guildID now).1, 0) := by
  rcases hgoc : GetOrCreateGuildConfig db guildID with ⟨dbc, c⟩
  have hfound : dbc.guildConfigs.find? (fun x => x.guildID == guildID) = some c := by
    have h := getOrCreate_after db guildID
    rw [hgoc] at h
    exact h
  have hgoc2 : GetOrCreateGuildConfig dbc guildID = (dbc, c) :=
    getOrCreate_of_found _ _ _ hfound
  by_cases hch : c.leaderboardChannel = ""
  · have hrun1 : checkEndedPeriodsForGuild db guildID now = (dbc, 0) := by
      rw [checkGuild_cases, hgoc]
      simp [hch]
    rw [hrun1]
    rw [checkGuild_cases, hgoc2]
    simp [hch]
  · by_cases hL : (GetEndedPeriodsNeedingLeaderboard dbc guildID now).isEmpty = true
    · have hrun1 : checkEndedPeriodsForGuild db guildID now = (dbc, 0) := by
        rw [checkGuild_cases, hgoc]
        simp [hch, hL]
      rw [hrun1]
      rw [checkGuild_cases, hgoc2]
      have hempty2 : GetEndedPeriodsNeedingLeaderboard dbc guildID now2 = [] := by
        refine List.filter_eq_nil_iff.2 ?_
        intro p hp hpred
        rw [Bool.and_eq_true, Bool.and_eq_true, beq_iff_eq] at hpred
        obtain ⟨⟨hg, hb2⟩, hnp⟩ := hpred
        have hpmem : p ∈ (checkEndedPeriodsForGuild db guildID now).1.periods := by
          rw [hrun1]
          exact hp
        have hb1 := hnonew p hpmem hb2
        have hmem1 : p ∈ GetEndedPeriodsNeedingLeaderboard dbc guildID now := by
          refine List.mem_filter.2 ⟨hp, ?_⟩
          rw [Bool.and_eq_true, Bool.and_eq_true, beq_iff_eq]
          exact ⟨⟨hg, hb1⟩, hnp⟩
        rw [List.isEmpty_iff] at hL
        rw [hL] at hmem1
        cases hmem1
      rw [hempty2]
      simp [hch]
    · have hrun1 : checkEndedPeriodsForGuild db guildID now
          = ((GetEndedPeriodsNeedingLeaderboard dbc guildID now).foldl
              (fun d p => MarkLeaderboardPosted d p.id) dbc,
             postSprintLeaderboard dbc guildID now) := by
        rw [checkGuild_cases, hgoc]
        simp [hch, hL]
      have hconfigs : ((GetEndedPeriodsNeedingLeaderboard dbc guildID now).foldl
          (fun d p => MarkLeaderboardPosted d p.id) dbc).guildConfigs = dbc.guildConfigs :=
        foldl_mark_guildConfigs _ _
      have hfound1 : ((GetEndedPeriodsNeedingLeaderboard dbc guildID now).foldl
          (fun d p => MarkLeaderboardPosted d p.id) dbc).guildConfigs.find?
            (fun x => x.guildID == guildID) = some c := by
        rw [hconfigs]
        exact hfound
      have hgoc3 : GetOrCreateGuildConfig ((GetEndedPeriodsNeedingLeaderboard dbc guildID
          now).foldl (fun d p => MarkLeaderboardPosted d p.id) dbc) guildID
          = ((GetEndedPeriodsNeedingLeaderboard dbc guildID now).foldl
              (fun d p => MarkLeaderboardPosted d p.id) dbc, c) :=
        getOrCreate_of_found _ _ _ hfound1
      have hempty2 : GetEndedPeriodsNeedingLeaderboard
          ((GetEndedPeriodsNeedingLeaderboard dbc guildID now).foldl
            (fun d p => MarkLeaderboardPosted d p.id) dbc) guildID now2 = [] := by
        refine List.filter_eq_nil_iff.2 ?_
        intro p hp hpred
        rw [Bool.and_eq_true, Bool.and_eq_true, beq_iff_eq] at hpred
        obtain ⟨⟨hg, hb2⟩, hnp⟩ := hpred
        have hpmem : p ∈ (checkEndedPeriodsForGuild db guildID now).1.periods := by
          rw [hrun1]
          exact hp
        have hb1 := hnonew p hpmem hb2
        have hp2 := hp
        rw [foldl_mark_periods] at hp2
        obtain ⟨p0, hp0, hfeq⟩ := List.mem_map.1 hp2
        by_cases hcond : ((GetEndedPeriodsNeedingLeaderboard dbc guildID now).any
            (fun q => q.id == p0.id)) = true
        · rw [if_pos hcond] at hfeq
          rw [← hfeq] at hnp
          simp at hnp
        · rw [if_neg (by simpa using hcond)] at hfeq
          subst hfeq
          have hmem1 : p0 ∈ GetEndedPeriodsNeedingLeaderboard dbc guildID now := by
            refine List.mem_filter.2 ⟨hp0, ?_⟩
            rw [Bool.and_eq_true, Bool.and_eq_true, beq_iff_eq]
            exact ⟨⟨hg, hb1⟩, hnp⟩
          have : ((GetEndedPeriodsNeedingLeaderboard dbc guildID now).any
              (fun q => q.id == p0.id)) = true :=
            List.any_eq_true.2 ⟨p0, hmem1, by simp⟩
          exact hcond this
      rw [hrun1]
      rw [checkGuild_cases, hgoc3, hempty2]
      simp [hch]

/-- A state for the sweep witness: one ended, unposted period, a
configured leaderboard channel, a user and a sprint row. -/
def c7db : DB :=
  { users := [{ id := 1, discordID := "d1", guildID := "g", username := "alice",
                totalPoints := 7 }],
    periods := [{ id := 5, userID := 1, guildID := "g", startDate := ⟨0, 0⟩,
                  endDate := ⟨14, 0⟩, leaderboardPosted := false }],
    tasks := [],
    sprintPoints := [{ focusPeriodID := 5, userID := 1, guildID := "g", points := 7,
                       startDate := ⟨0, 0⟩, endDate := ⟨14, 0⟩ }],
    guildConfigs := [{ guildID := "g", leaderboardChannel := "chan" }],
    standups := [], streaks := [] }

/-- Witness for C7 on `c7db` at day 15 (period ended): the second sweep
returns the first sweep's state with zero posts. -/
theorem C7_witness :
    (∀ p ∈ (checkEndedPeriodsForGuild c7db "g" ⟨15, 0⟩).1.periods,
      Time.blt p.endDate ⟨15, 0⟩ = true → Time.blt p.endDate ⟨15, 0⟩ = true) ∧
    checkEndedPeriodsForGuild (checkEndedPeriodsForGuild c7db "g" ⟨15, 0⟩).1 "g" ⟨15, 0⟩
      = ((checkEndedPeriodsForGuild c7db "g" ⟨15, 0⟩).1, 0) :=
  ⟨fun _ _ h => h, C7_sweep_idempotent c7db "g" ⟨15, 0⟩ ⟨15, 0⟩ (fun _ _ h => h)⟩

theorem getOrCreate_periods (db : DB) (guildID : String) :
    (GetOrCreateGuildConfig db guildID).1.periods = db.periods := by
  unfold GetOrCreateGuildConfig
  cases db.guildConfigs.find? (fun c => c.guildID == guildID) <;> rfl

theorem filter_guild_map (l : List FocusPeriod) (f : FocusPeriod → FocusPeriod) (g : String)
    (hg : ∀ p ∈ l, (f p).guildID = p.guildID)
    (hid : ∀ p ∈ l, p.guildID = g → f p = p) :
    (l.map f).filter (fun p => p.guildID == g) = l.filter (fun p => p.guildID == g) := by
  induction l with
  | nil => rfl
  | cons p l ih =>
    have ih2 := ih (fun q hq => hg q (List.mem_cons_of_mem p hq))
      (fun q hq => hid q (List.mem_cons_of_mem p hq))
    rw [List.map_cons, List.filter_cons, List.filter_cons]
    by_cases hpg : (p.guildID == g) = true
    · have hfp : f p = p := hid p (List.mem_cons_self p l) (beq_iff_eq.1 hpg)
      rw [hfp, if_pos hpg, if_pos hpg, ih2]
    · have hfg : ((f p).guildID == g) = false := by
        rw [hg p (List.mem_cons_self p l)]
        simpa using hpg
      rw [if_neg (by simpa using hfg), if_neg (by simpa using hpg)]
      exact ih2

/-- Sweeping guild `g2` never touches the periods of a different guild
`g` (given primary-key uniqueness of period ids), and preserves the id
multiset of the period table. -/
theorem checkGuild_other_guild (acc : DB) (g2 g : String) (now : Time) (hne : g2 ≠ g)
    (hnodup : (acc.periods.map (fun p => p.id)).Nodup) :
    ((checkEndedPeriodsForGuild acc g2 now).1.periods.map (fun p => p.id)
        = acc.periods.map (fun p => p.id)) ∧
    ((checkEndedPeriodsForGuild acc g2 now).1.periods.filter (fun p => p.guildID == g)
        = acc.periods.filter (fun p => p.guildID == g)) := by
  rw [checkGuild_cases]
  have hper : (GetOrCreateGuildConfig acc g2).1.periods = acc.periods :=
    getOrCreate_periods acc g2
  have hfetch : GetEndedPeriodsNeedingLeaderboard (GetOrCreateGuildConfig acc g2).1 g2 now
      = acc.periods.filter (fun p => p.guildID == g2 && Time.blt p.endDate now
          && !p.leaderboardPosted) := by
    unfold GetEndedPeriodsNeedingLeaderboard
    rw [hper]
  by_cases hch : (GetOrCreateGuildConfig acc g2).2.leaderboardChannel = ""
  · rw [if_pos hch, hper]
    exact ⟨rfl, rfl⟩
  · by_cases hL : (GetEndedPeriodsNeedingLeaderboard (GetOrCreateGuildConfig acc g2).1
        g2 now).isEmpty = true
    · rw [if_neg hch, if_pos hL, hper]
      exact ⟨rfl, rfl⟩
    · rw [if_neg hch, if_neg hL]
      constructor
      · show ((GetEndedPeriodsNeedingLeaderboard (GetOrCreateGuildConfig acc g2).1 g2
            now).foldl (fun d p => MarkLeaderboardPosted d p.id)
            (GetOrCreateGuildConfig acc g2).1).periods.map (fun p => p.id)
          = acc.periods.map (fun p => p.id)
        rw [foldl_mark_periods, hper, List.map_map]
        refine List.map_congr_left ?_
        intro p _
        simp only [Function.comp]
        by_cases hc : ((GetEndedPeriodsNeedingLeaderboard (GetOrCreateGuildConfig acc g2).1
            g2 now).any (fun q => q.id == p.id)) = true
        · rw [if_pos hc]
        · rw [if_neg (by simpa using hc)]
      · show ((GetEndedPeriodsNeedingLeaderboard (GetOrCreateGuildConfig acc g2).1 g2
            now).foldl (fun d p => MarkLeaderboardPosted d p.id)
            (GetOrCreateGuildConfig acc g2).1).periods.filter (fun p => p.guildID == g)
          = acc.periods.filter (fun p => p.guildID == g)
        rw [foldl_mark_periods, hper]
        refine filter_guild_map _ _ _ ?_ ?_
        · intro p _
          by_cases hc : ((GetEndedPeriodsNeedingLeaderboard (GetOrCreateGuildConfig acc g2).1
              g2 now).any (fun q => q.id == p.id)) = true
          · rw [if_pos hc]
          · rw [if_neg (by simpa using hc)]
        · intro p hp hpg
          by_cases hc : ((GetEndedPeriodsNeedingLeaderboard (GetOrCreateGuildConfig acc g2).1
              g2 now).any (fun q => q.id == p.id)) = true
          · exfalso
            obtain ⟨q, hq, hqid⟩ := List.any_eq_true.1 hc
            rw [hfetch] at hq
            have hq2 := List.mem_filter.1 hq
            have hqg : q.guildID = g2 := by
              have := hq2.2
              rw [Bool.and_eq_true, Bool.and_eq_true, beq_iff_eq] at this
              exact this.1.1
            have hqp : q = p :=
              List.inj_on_of_nodup_map hnodup hq2.1 hp (beq_iff_eq.1 hqid)
            rw [hqp] at hqg
            rw [hpg] at hqg
            exact hne hqg.symm
          · rw [if_neg (by simpa using hc)]

/-- The guild loop of the sweep, run over guilds all different from `g`,
leaves `g`'s periods untouched and logs no posting for `g`. -/
theorem sweep_fold_other (gs : List String) (accdb : DB) (log : List (String × Nat))
    (g : String) (now : Time) (hgs : ∀ g2 ∈ gs, g2 ≠ g)
    (hnodup : (accdb.periods.map (fun p => p.id)).Nodup) :
    ((gs.foldl (sweepStep now) (accdb, log)).1.periods.filter (fun p => p.guildID == g)
        = accdb.periods.filter (fun p => p.guildID == g)) ∧
    (∀ x ∈ (gs.foldl (sweepStep now) (accdb, log)).2, x ∈ log ∨ x.1 ∈ gs) := by
  induction gs generalizing accdb log with
  | nil => exact ⟨rfl, fun x hx => Or.inl hx⟩
  | cons g2 gs ih =>
    have hne : g2 ≠ g := hgs g2 (List.mem_cons_self g2 gs)
    obtain ⟨hids, hfil⟩ := checkGuild_other_guild accdb g2 g now hne hnodup
    have hnodup2 : ((checkEndedPeriodsForGuild accdb g2 now).1.periods.map
        (fun p => p.id)).Nodup := by
      rw [hids]
      exact hnodup
    rw [List.foldl_cons]
    have hstep : sweepStep now (accdb, log) g2
        = ((checkEndedPeriodsForGuild accdb g2 now).1,
           log ++ [(g2, (checkEndedPeriodsForGuild accdb g2 now).2)]) := rfl
    rw [hstep]
    obtain ⟨ih1, ih2⟩ := ih ((checkEndedPeriodsForGuild accdb g2 now).1)
      (log ++ [(g2, (checkEndedPeriodsForGuild accdb g2 now).2)])
      (fun q hq => hgs q (List.mem_cons_of_mem g2 hq)) hnodup2
    refine ⟨by rw [ih1, hfil], ?_⟩
    intro x hx
    rcases ih2 x hx with hxl | hxg
    · rcases List.mem_append.1 hxl with h | h
      · exact Or.inl h
      · right
        rw [List.mem_singleton.1 h]
        exact List.mem_cons_self g2 gs
    · right
      exact List.mem_cons_of_mem g2 hxg

/-- C10: the daily ended-period sweep only visits communities with at
least one period whose `[start, end]` interval contains `now`; a
community whose periods have all ended is never visited: it receives no
leaderboard post and its ended, unfinalized periods stay untouched. -/
theorem C10_inactive_guild_not_swept (db : DB) (g : String) (now : Time)
    (hnodup : (db.periods.map (fun p => p.id)).Nodup)
    (hng : ∀ p ∈ db.periods, p.guildID = g →
      ¬(Time.ble p.startDate now = true ∧ Time.ble now p.endDate = true)) :
    g ∉ GetAllGuildsWithActivePeriods db now ∧
    (∀ x ∈ (checkEndedFocusPeriods db now).2, x.1 ≠ g) ∧
    (checkEndedFocusPeriods db now).1.periods.filter (fun p => p.guildID == g)
      = db.periods.filter (fun p => p.guildID == g) := by
  have hnotmem : g ∉ GetAllGuildsWithActivePeriods db now := by
    intro hmem
    unfold GetAllGuildsWithActivePeriods at hmem
    rw [List.mem_dedup] at hmem
    obtain ⟨p, hp, hpg⟩ := List.mem_map.1 hmem
    have h2 := List.mem_filter.1 hp
    have hpred := h2.2
    rw [Bool.and_eq_true] at hpred
    exact hng p h2.1 hpg ⟨hpred.1, hpred.2⟩
  have hgs : ∀ g2 ∈ GetAllGuildsWithActivePeriods db now, g2 ≠ g := by
    intro g2 h2 heq
    rw [heq] at h2
    exact hnotmem h2
  obtain ⟨h1, h2⟩ := sweep_fold_other (GetAllGuildsWithActivePeriods db now) db [] g now
    hgs hnodup
  refine ⟨hnotmem, ?_, h1⟩
  intro x hx heq
  rcases h2 x hx with hxl | hxg
  · cases hxl
  · rw [heq] at hxg
    exact hnotmem hxg

/-- A state whose only community `"h"` has a single ended period: on day
20 the sweep must skip it. -/
def c10db : DB :=
  { users := [{ id := 1, discordID := "d1", guildID := "h", username := "alice",
                totalPoints := 7 }],
    periods := [{ id := 5, userID := 1, guildID := "h", startDate := ⟨0, 0⟩,
                  endDate := ⟨10, 0⟩, leaderboardPosted := false }],
    tasks := [], sprintPoints := [],
    guildConfigs := [{ guildID := "h", leaderboardChannel := "chan" }],
    standups := [], streaks := [] }

/-- Witness for C10 on `c10db` at day 20: the guild is not enumerated,
nothing is posted for it, and its ended unposted period is untouched. -/
theorem C10_witness :
    "h" ∉ GetAllGuildsWithActivePeriods c10db ⟨20, 0⟩ ∧
    (∀ x ∈ (checkEndedFocusPeriods c10db ⟨20, 0⟩).2, x.1 ≠ "h") ∧
    (checkEndedFocusPeriods c10db ⟨20, 0⟩).1.periods.filter (fun p => p.guildID == "h")
      = c10db.periods.filter (fun p => p.guildID == "h") :=
  C10_inactive_guild_not_swept c10db "h" ⟨20, 0⟩ (by decide) (by decide)

end BootstrapBot
